import Mathlib

/-!
Verification development for the Port Stanley bathymetry rip-current pipeline
(`generate_flow_data.py` and `generate_rip_heatmap.py`).

Modelling conventions:
* Floating-point cell values are modelled as exact rationals; the NaN no-data
  sentinel is modelled by `Option ℚ` with `none` playing the role of NaN
  (arithmetic on `none` propagates it, as NaN does).
* `scipy.ndimage.gaussian_filter(data, sigma=2)` is a convolution with a fixed
  truncated window (truncate = 4.0, hence radius `int(4*2+0.5) = 8`) in
  `reflect` boundary mode; the (irrational) Gaussian weights are abstracted as
  a parameter `ker`, while the window, the boundary handling and the
  NaN-propagation are modelled concretely.
* `np.sqrt` on nonnegative arguments is abstracted as a parameter `s : ℚ → ℚ`;
  theorems assume only the properties of square root that they need.
* The pyproj coordinate transformer (an external collaborator per the spec) is
  a parameter `tr : ℚ × ℚ → ℚ × ℚ` mapping projected `(x, y)` to `(lon, lat)`.
* A Python run that raises an exception is modelled by `none` in an
  `Option`-valued result (in `calculate_flow_vectors` the only exception
  reachable from the numeric core is the `ZeroDivisionError` of
  `v['magnitude'] /= max_mag` when `max_mag` is exactly `0.0`, and the
  `ValueError` of `np.gradient` on an axis with fewer than 2 samples).
-/

namespace PortStanley

attribute [local semireducible] Rat.add Rat.mul Rat.sub Rat.inv Rat.ofScientific

/-- A raster cell value: `none` models the NaN no-data sentinel. -/
abbrev Val := Option ℚ

/-- Addition with NaN propagation. -/
def vadd : Val → Val → Val
  | some a, some b => some (a + b)
  | _, _ => none

/-- Subtraction with NaN propagation. -/
def vsub : Val → Val → Val
  | some a, some b => some (a - b)
  | _, _ => none

/-- Multiplication with NaN propagation (note `0 * NaN = NaN` in floats). -/
def vmul : Val → Val → Val
  | some a, some b => some (a * b)
  | _, _ => none

/-- Division with NaN propagation; an exact-zero divisor yields NaN
(the call sites guard the divisor away from zero with the `1e-10` epsilon). -/
def vdiv : Val → Val → Val
  | some a, some b => if b = 0 then none else some (a / b)
  | _, _ => none

/-- `np.sqrt` through the abstract square-root parameter `s`
(NaN in, NaN out). -/
def vsqrt (s : ℚ → ℚ) : Val → Val := Option.map s

/-- `np.nan_to_num`: NaN becomes `0.0`. -/
def nan_to_num : Val → ℚ
  | some a => a
  | none => 0

/-- A two-dimensional array of cell values. -/
structure Mat where
  h : ℕ
  w : ℕ
  val : ℕ → ℕ → Val

/-- Index folding of scipy boundary mode `reflect` for an axis of length `n`:
`(d c b a | a b c d | d c b a)`. -/
def reflect (n : ℕ) (z : ℤ) : ℕ :=
  if n ≤ 1 then 0
  else if z % (2 * (n : ℤ)) < n then (z % (2 * (n : ℤ))).toNat
  else (2 * n - 1 - z % (2 * (n : ℤ))).toNat

/-- Window offsets of the truncated sigma-2 Gaussian: radius 8. -/
def offsets : List ℤ := (List.range 17).map fun k => (k : ℤ) - 8

/-- `scipy.ndimage.gaussian_filter(·, sigma=2)` with the kernel weights
abstracted as `ker`; a NaN anywhere in the window makes the output NaN, as in
floating point. -/
def gaussian_filter (ker : ℤ → ℤ → ℚ) (m : Mat) : Mat :=
  ⟨m.h, m.w, fun i j =>
    (offsets.flatMap fun di => offsets.map fun dj =>
      vmul (some (ker di dj))
        (m.val (reflect m.h ((i : ℤ) + di)) (reflect m.w ((j : ℤ) + dj)))).foldr
      vadd (some 0)⟩

/-- `np.gradient` along axis 0 (rows): forward/backward difference at the
edges, central difference in the interior. -/
def gradRow (m : Mat) : Mat :=
  ⟨m.h, m.w, fun i j =>
    if i = 0 then vsub (m.val 1 j) (m.val 0 j)
    else if i = m.h - 1 then vsub (m.val i j) (m.val (i - 1) j)
    else vmul (some (1 / 2)) (vsub (m.val (i + 1) j) (m.val (i - 1) j))⟩

/-- `np.gradient` along axis 1 (columns). -/
def gradCol (m : Mat) : Mat :=
  ⟨m.h, m.w, fun i j =>
    if j = 0 then vsub (m.val i 1) (m.val i 0)
    else if j = m.w - 1 then vsub (m.val i j) (m.val i (j - 1))
    else vmul (some (1 / 2)) (vsub (m.val i (j + 1)) (m.val i (j - 1)))⟩

/-- `np.gradient(m)` over both axes: raises (`none`) unless every
differentiated axis has at least 2 samples; returns `(grad axis0, grad axis1)`,
i.e. `(grad_y, grad_x)` in the scripts. -/
def npGradient (m : Mat) : Option (Mat × Mat) :=
  if 2 ≤ m.h ∧ 2 ≤ m.w then some (gradRow m, gradCol m) else none

/-- `np.gradient(f, axis=0)` on an already-sanitized (NaN-free) array. -/
def gradRowQ (h : ℕ) (f : ℕ → ℕ → ℚ) : ℕ → ℕ → ℚ := fun i j =>
  if i = 0 then f 1 j - f 0 j
  else if i = h - 1 then f i j - f (i - 1) j
  else (f (i + 1) j - f (i - 1) j) / 2

/-- `np.gradient(f, axis=1)` on an already-sanitized (NaN-free) array. -/
def gradColQ (w : ℕ) (f : ℕ → ℕ → ℚ) : ℕ → ℕ → ℚ := fun i j =>
  if j = 0 then f i 1 - f i 0
  else if j = w - 1 then f i j - f i (j - 1)
  else (f i (j + 1) - f i (j - 1)) / 2

/-- The epsilon guard `1e-10` used in the flow-direction division. -/
def eps : ℚ := 1 / 10000000000

/-- Insert into a sorted list (ascending). -/
def insertSorted (x : ℚ) : List ℚ → List ℚ
  | [] => [x]
  | y :: ys => if x ≤ y then x :: y :: ys else y :: insertSorted x ys

/-- Ascending sort, as used inside the percentile computation. -/
def sortQ : List ℚ → List ℚ := fun l => l.foldr insertSorted []

/-- Element access with default `0`. -/
def nthOr (l : List ℚ) (i : ℕ) : ℚ := l.getD i 0

/-- `np.nanpercentile(xs, p)` on a NaN-free array: numpy's default linear
interpolation between the two nearest order statistics. -/
def percentile (p : ℚ) (xs : List ℚ) : ℚ :=
  let s := sortQ xs
  let pos := ((xs.length : ℚ) - 1) * p / 100
  nthOr s ⌊pos⌋.toNat + (pos - ⌊pos⌋) * (nthOr s ⌈pos⌉.toNat - nthOr s ⌊pos⌋.toNat)

/-- Python `max` over a list (the empty case is never reached at call sites,
which guard on non-emptiness). -/
def listMax : List ℚ → ℚ
  | [] => 0
  | [x] => x
  | x :: y :: t => max x (listMax (y :: t))

/-- The row (or column) indices visited by `range(0, n, g)`. -/
def sampled (n g : ℕ) : List ℕ := (List.range n).filter fun i => i % g = 0

/-- The sampled `(row, col)` pairs, in the row-major order of the
nested Python loops. -/
def sampledPairs (h w g : ℕ) : List (ℕ × ℕ) :=
  (sampled h g).flatMap fun i => (sampled w g).map fun j => (i, j)

/-- All in-range entries of an `h × w` sanitized array, row-major. -/
def allVals (h w : ℕ) (f : ℕ → ℕ → ℚ) : List ℚ :=
  (List.range h).flatMap fun i => (List.range w).map fun j => f i j

/-- A loaded single-band raster: the data array (with `none` for NaN cells),
the extent bounds `src.bounds` in the source coordinate reference system, and
the affine pixel-to-projected transform `(col, row) ↦ (a·col + b·row + c,
d·col + e·row + f)`. -/
structure Raster where
  h : ℕ
  w : ℕ
  data : ℕ → ℕ → Val
  left : ℚ
  bottom : ℚ
  right : ℚ
  top : ℚ
  a : ℚ
  b : ℚ
  c : ℚ
  d : ℚ
  e : ℚ
  f : ℚ

/-- The raster data as a matrix. -/
def matOf (r : Raster) : Mat := ⟨r.h, r.w, r.data⟩

/-- `transform * (col, row)`: pixel to projected coordinates. -/
def pixToXY (r : Raster) (col row : ℕ) : ℚ × ℚ :=
  (r.a * col + r.b * row + r.c, r.d * col + r.e * row + r.f)

/-- The `bounds` object of an output document. -/
structure GeoBounds where
  south : ℚ
  west : ℚ
  north : ℚ
  east : ℚ
  deriving DecidableEq

/-- The raster extent written verbatim:
`{south: bounds.bottom, west: bounds.left, north: bounds.top,
east: bounds.right}`. -/
def rawBounds (r : Raster) : GeoBounds := ⟨r.bottom, r.left, r.top, r.right⟩

/-- One element of the `flow_vectors` array. -/
structure FlowVec where
  lat : ℚ
  lon : ℚ
  dx : ℚ
  dy : ℚ
  magnitude : ℚ
  deriving DecidableEq

/-- The `flow_vectors.json` document (its numeric content). -/
structure FlowOut where
  bounds : GeoBounds
  flow_vectors : List FlowVec
  grid_spacing : ℕ
  total_vectors : ℕ
  deriving DecidableEq

/-- One element of a directional risk collection. -/
structure RiskCell where
  lat : ℚ
  lon : ℚ
  risk : ℚ
  deriving DecidableEq

/-- The `rip_risk_zones.json` document (its numeric content). -/
structure RipOut where
  bounds : GeoBounds
  east : List RiskCell
  west : List RiskCell
  offshore : List RiskCell
  grid_resolution : ℕ
  deriving DecidableEq

/-- One cell of the exported depth grid; `depth` is `none` exactly when the
script writes JSON `null`. -/
structure DepthCell where
  lat : ℚ
  lon : ℚ
  depth : Option ℚ
  flow_x : ℚ
  flow_y : ℚ
  deriving DecidableEq

/-- The `depth_grid.json` document (its numeric content). -/
structure DepthOut where
  bounds : GeoBounds
  rows : ℕ
  cols : ℕ
  grid : List (List DepthCell)
  deriving DecidableEq

/-- `gaussian_filter(data, sigma=2)` applied to the raster. -/
def smoothedOf (ker : ℤ → ℤ → ℚ) (r : Raster) : Mat :=
  gaussian_filter ker (matOf r)

/-- `grad_y` of the smoothed raster (`np.gradient` axis 0). -/
def gyOf (ker : ℤ → ℤ → ℚ) (r : Raster) : ℕ → ℕ → Val :=
  (gradRow (smoothedOf ker r)).val

/-- `grad_x` of the smoothed raster (`np.gradient` axis 1). -/
def gxOf (ker : ℤ → ℤ → ℚ) (r : Raster) : ℕ → ℕ → Val :=
  (gradCol (smoothedOf ker r)).val

/-- `magnitude = np.sqrt(grad_x**2 + grad_y**2)` before `nan_to_num`. -/
def magV (ker : ℤ → ℤ → ℚ) (s : ℚ → ℚ) (r : Raster) : ℕ → ℕ → Val :=
  fun i j =>
    vsqrt s (vadd (vmul (gxOf ker r i j) (gxOf ker r i j))
      (vmul (gyOf ker r i j) (gyOf ker r i j)))

/-- `flow_x = nan_to_num(grad_x / (magnitude + 1e-10))`. -/
def flow_x (ker : ℤ → ℤ → ℚ) (s : ℚ → ℚ) (r : Raster) : ℕ → ℕ → ℚ :=
  fun i j => nan_to_num (vdiv (gxOf ker r i j) (vadd (magV ker s r i j) (some eps)))

/-- `flow_y = nan_to_num(grad_y / (magnitude + 1e-10))`. -/
def flow_y (ker : ℤ → ℤ → ℚ) (s : ℚ → ℚ) (r : Raster) : ℕ → ℕ → ℚ :=
  fun i j => nan_to_num (vdiv (gyOf ker r i j) (vadd (magV ker s r i j) (some eps)))

/-- `magnitude = nan_to_num(magnitude)`. -/
def magnitude (ker : ℤ → ℤ → ℚ) (s : ℚ → ℚ) (r : Raster) : ℕ → ℕ → ℚ :=
  fun i j => nan_to_num (magV ker s r i j)

/-- The flow vectors retained by the grid sampling and the 30th-percentile
magnitude filter, before normalization, in the loop's row-major order. -/
def flowVecsRaw (ker : ℤ → ℤ → ℚ) (s : ℚ → ℚ) (tr : ℚ × ℚ → ℚ × ℚ)
    (r : Raster) (g : ℕ) : List FlowVec :=
  (sampledPairs r.h r.w g).filterMap fun ij =>
    if magnitude ker s r ij.1 ij.2 < percentile 30 (allVals r.h r.w (magnitude ker s r)) then
      none
    else
      some ⟨(tr (pixToXY r ij.2 ij.1)).2, (tr (pixToXY r ij.2 ij.1)).1,
        flow_x ker s r ij.1 ij.2, flow_y ker s r ij.1 ij.2,
        magnitude ker s r ij.1 ij.2⟩

/-- `calculate_flow_vectors` from `generate_flow_data.py`: `none` models a
raised exception (the `ValueError` of `np.gradient` on a degenerate axis, or
the `ZeroDivisionError` of the magnitude normalization when the retained
maximum is exactly zero). -/
def calculate_flow_vectors (ker : ℤ → ℤ → ℚ) (s : ℚ → ℚ)
    (tr : ℚ × ℚ → ℚ × ℚ) (r : Raster) (g : ℕ) : Option FlowOut :=
  if (npGradient (smoothedOf ker r)).isSome then
    let vecs := flowVecsRaw ker s tr r g
    if vecs = [] then some ⟨rawBounds r, vecs, g, vecs.length⟩
    else
      let maxMag := listMax (vecs.map FlowVec.magnitude)
      if maxMag = 0 then none
      else
        let nvecs := vecs.map fun v => { v with magnitude := v.magnitude / maxMag }
        some ⟨rawBounds r, nvecs, g, nvecs.length⟩
  else none

/-- `divergence = np.gradient(flow_x, axis=1) + np.gradient(flow_y, axis=0)`. -/
def divergence (ker : ℤ → ℤ → ℚ) (s : ℚ → ℚ) (r : Raster) : ℕ → ℕ → ℚ :=
  fun i j => gradColQ r.w (flow_x ker s r) i j + gradRowQ r.h (flow_y ker s r) i j

/-- `east_flow = flow_x[i, j]`. -/
def east_flow (ker : ℤ → ℤ → ℚ) (s : ℚ → ℚ) (r : Raster) (i j : ℕ) : ℚ :=
  flow_x ker s r i j

/-- `offshore_component = -flow_y[i, j]`. -/
def offshore_component (ker : ℤ → ℤ → ℚ) (s : ℚ → ℚ) (r : Raster) (i j : ℕ) : ℚ :=
  -(flow_y ker s r i j)

/-- `convergence = -divergence[i, j]`. -/
def convergence (ker : ℤ → ℤ → ℚ) (s : ℚ → ℚ) (r : Raster) (i j : ℕ) : ℚ :=
  -(divergence ker s r i j)

/-- The raw east-current risk score of a sampled cell. -/
def east_risk (ker : ℤ → ℤ → ℚ) (s : ℚ → ℚ) (r : Raster) (i j : ℕ) : ℚ :=
  (max 0 (east_flow ker s r i j) * 0.4 + max 0 (convergence ker s r i j) * 0.3 +
    max 0 (offshore_component ker s r i j) * 0.3) * magnitude ker s r i j * 100

/-- The raw west-current risk score of a sampled cell. -/
def west_risk (ker : ℤ → ℤ → ℚ) (s : ℚ → ℚ) (r : Raster) (i j : ℕ) : ℚ :=
  (max 0 (-(flow_x ker s r i j)) * 0.4 + max 0 (convergence ker s r i j) * 0.3 +
    max 0 (offshore_component ker s r i j) * 0.3) * magnitude ker s r i j * 100

/-- The raw offshore risk score of a sampled cell. -/
def offshore_risk (ker : ℤ → ℤ → ℚ) (s : ℚ → ℚ) (r : Raster) (i j : ℕ) : ℚ :=
  (max 0 (offshore_component ker s r i j) * 0.6 + max 0 (convergence ker s r i j) * 0.4) *
    magnitude ker s r i j * 100

/-- One direction's risk collection before the final re-normalization: a
sampled cell is skipped when its source depth value is NaN, and appended with
risk `min(1.0, score)` exactly when `score > 0.001`. -/
def riskListRaw (score : ℕ → ℕ → ℚ) (tr : ℚ × ℚ → ℚ × ℚ) (r : Raster) (g : ℕ) :
    List RiskCell :=
  (sampledPairs r.h r.w g).filterMap fun ij =>
    if r.data ij.1 ij.2 = none then none
    else if 0.001 < score ij.1 ij.2 then
      some ⟨(tr (pixToXY r ij.2 ij.1)).2, (tr (pixToXY r ij.2 ij.1)).1,
        min 1 (score ij.1 ij.2)⟩
    else none

/-- The per-direction re-normalization: skipped when the collection is empty,
and also when its maximum is not positive. -/
def normalizeRisks (l : List RiskCell) : List RiskCell :=
  if l = [] then l
  else
    let m := listMax (l.map RiskCell.risk)
    if 0 < m then l.map fun z => { z with risk := z.risk / m } else l

/-- `calculate_rip_risk_zones` from `generate_rip_heatmap.py`: `none` models
the `ValueError` of `np.gradient` on a degenerate axis; the output bounds are
the transformer images of the extent corners. -/
def calculate_rip_risk_zones (ker : ℤ → ℤ → ℚ) (s : ℚ → ℚ)
    (tr : ℚ × ℚ → ℚ × ℚ) (r : Raster) (g : ℕ) : Option RipOut :=
  if (npGradient (smoothedOf ker r)).isSome then
    some ⟨⟨(tr (r.left, r.bottom)).2, (tr (r.left, r.bottom)).1,
        (tr (r.right, r.top)).2, (tr (r.right, r.top)).1⟩,
      normalizeRisks (riskListRaw (east_risk ker s r) tr r g),
      normalizeRisks (riskListRaw (west_risk ker s r) tr r g),
      normalizeRisks (riskListRaw (offshore_risk ker s r) tr r g), g⟩
  else none

/-- `ceil(n / k)`, the length of the strided slice `[::k]`. -/
def ceilDiv (n k : ℕ) : ℕ := (n + k - 1) / k

/-- `downsampled = data[::downsample, ::downsample]`. -/
def downsampleMat (r : Raster) (k : ℕ) : Mat :=
  ⟨ceilDiv r.h k, ceilDiv r.w k, fun i j => r.data (i * k) (j * k)⟩

/-- `export_depth_grid` from `generate_flow_data.py`: no smoothing; the
gradient, magnitude and unit directions are recomputed on the downsampled
array; `none` models the `ValueError` of `np.gradient` when the downsampled
array has an axis with fewer than 2 samples. -/
def export_depth_grid (s : ℚ → ℚ) (tr : ℚ × ℚ → ℚ × ℚ) (r : Raster) (k : ℕ) :
    Option DepthOut :=
  let dm := downsampleMat r k
  if (npGradient dm).isSome then
    let gy := (gradRow dm).val
    let gx := (gradCol dm).val
    let mV := fun i j =>
      vsqrt s (vadd (vmul (gx i j) (gx i j)) (vmul (gy i j) (gy i j)))
    let fx := fun i j => nan_to_num (vdiv (gx i j) (vadd (mV i j) (some eps)))
    let fy := fun i j => nan_to_num (vdiv (gy i j) (vadd (mV i j) (some eps)))
    some ⟨rawBounds r, dm.h, dm.w,
      (List.range dm.h).map fun i => (List.range dm.w).map fun j =>
        ⟨(tr (pixToXY r (j * k) (i * k))).2, (tr (pixToXY r (j * k) (i * k))).1,
          dm.val i j, fx i j, fy i j⟩⟩
  else none

/-- The east risk formula exactly as the spec words it, as a function of the
cell's flow components, divergence and magnitude. -/
def spec_east_risk (fx fy dvg mg : ℚ) : ℚ :=
  (max 0 fx * 0.4 + max 0 (-dvg) * 0.3 + max 0 (-fy) * 0.3) * mg * 100

/-- The offshore risk formula exactly as the spec words it. -/
def spec_offshore_risk (fy dvg mg : ℚ) : ℚ :=
  (max 0 (-fy) * 0.6 + max 0 (-dvg) * 0.4) * mg * 100

/-- A concrete smoothing kernel instance (a unit impulse) used for the
concrete evaluations. -/
def dKer : ℤ → ℤ → ℚ := fun di dj => if di = 0 ∧ dj = 0 then 1 else 0

/-- A concrete square-root instance for concrete evaluations; it is
nonnegative and vanishes only at zero, and is exact on the values that the
concrete rasters below produce (squares of `0` and `1`). -/
def wsqrt : ℚ → ℚ := fun x => |x|

/-- A concrete square-root instance exact on `25` (and on `0`). -/
def sqrt25 : ℚ → ℚ := fun x => if x = 25 then 5 else |x|

/-- The identity coordinate transformer (a raster already in geographic
coordinates). -/
def idTr : ℚ × ℚ → ℚ × ℚ := fun p => p

/-- A coordinate transformer that moves the corners (a projected raster whose
coordinate system is not geographic degrees). -/
def shiftTr : ℚ × ℚ → ℚ × ℚ := fun p => (p.1 + 100, p.2)

/-- A 2×2 raster sloping eastward: `[[0, 1], [0, 1]]`. -/
def rSlope : Raster := ⟨2, 2, fun _ j => some (j : ℚ), 0, 0, 2, 2, 1, 0, 0, 0, 1, 0⟩

/-- A 2×2 raster all of whose cells are the NaN no-data sentinel. -/
def rNaN : Raster := ⟨2, 2, fun _ _ => none, 0, 0, 2, 2, 1, 0, 0, 0, 1, 0⟩

/-- A degenerate 1×1 raster with a single valid cell. -/
def rOne : Raster := ⟨1, 1, fun _ _ => some 5, 0, 0, 1, 1, 1, 0, 0, 0, 1, 0⟩

/-- A 2×2 raster whose gradient at cell `(0,0)` is `(grad_x, grad_y) = (3, 4)`. -/
def rDiag : Raster :=
  ⟨2, 2, fun i j => some (if i = 0 ∧ j = 1 then 3 else if i = 1 ∧ j = 0 then 4 else 0),
    0, 0, 2, 2, 1, 0, 0, 0, 1, 0⟩

/-- Placeholder output used only as a `getD` default in closed statements. -/
def dummyFlowOut : FlowOut := ⟨⟨0, 0, 0, 0⟩, [], 0, 0⟩

/-- Placeholder output used only as a `getD` default in closed statements. -/
def dummyRipOut : RipOut := ⟨⟨0, 0, 0, 0⟩, [], [], [], 0⟩

/-- Placeholder output used only as a `getD` default in closed statements. -/
def dummyDepthOut : DepthOut := ⟨⟨0, 0, 0, 0⟩, 0, 0, []⟩

/-- Placeholder cell used only as a `getD` default in closed statements. -/
def dummyDepthCell : DepthCell := ⟨0, 0, none, 0, 0⟩

/-! ### Helper lemmas: NaN propagation -/

theorem vadd_none_left (v : Val) : vadd none v = none := by cases v <;> rfl

theorem vadd_none_right (v : Val) : vadd v none = none := by cases v <;> rfl

theorem vmul_none_right (v : Val) : vmul v none = none := by cases v <;> rfl

theorem vdiv_none_right (v : Val) : vdiv v none = none := by cases v <;> rfl

theorem foldr_vadd_none {l : List Val} (h : none ∈ l) (z : Val) :
    l.foldr vadd z = none := by
  induction l with
  | nil => cases h
  | cons x t ih =>
    rcases List.mem_cons.mp h with hx | hx
    · show vadd x (t.foldr vadd z) = none
      rw [← hx]
      exact vadd_none_left _
    · show vadd x (t.foldr vadd z) = none
      rw [ih hx]
      exact vadd_none_right x

theorem reflect_lt {n : ℕ} (hn : 0 < n) (z : ℤ) : reflect n z < n := by
  unfold reflect
  split
  · exact hn
  · have h2 : (0 : ℤ) < 2 * n := by omega
    have hnn : 0 ≤ z % (2 * (n : ℤ)) := Int.emod_nonneg z (by omega)
    have hlt : z % (2 * (n : ℤ)) < 2 * n := Int.emod_lt_of_pos z h2
    split <;> omega

/-! ### Helper lemmas: sampling grids -/

theorem mem_sampled {n g i : ℕ} (h : i ∈ sampled n g) : i < n :=
  List.mem_range.mp (List.mem_filter.mp h).1

theorem zero_mem_sampled {n g : ℕ} (hn : 0 < n) : 0 ∈ sampled n g := by
  refine List.mem_filter.mpr ⟨List.mem_range.mpr hn, ?_⟩
  simp

theorem mem_sampledPairs {h w g : ℕ} {ij : ℕ × ℕ} (hm : ij ∈ sampledPairs h w g) :
    ij.1 < h ∧ ij.2 < w := by
  rcases List.mem_flatMap.mp hm with ⟨i, hi, hmem⟩
  rcases List.mem_map.mp hmem with ⟨j, hj, hij⟩
  subst hij
  exact ⟨mem_sampled hi, mem_sampled hj⟩

theorem zero_mem_sampledPairs {h w g : ℕ} (hh : 0 < h) (hw : 0 < w) :
    ((0, 0) : ℕ × ℕ) ∈ sampledPairs h w g :=
  List.mem_flatMap.mpr
    ⟨0, zero_mem_sampled hh, List.mem_map.mpr ⟨0, zero_mem_sampled hw, rfl⟩⟩

theorem mem_allVals {h w : ℕ} {f : ℕ → ℕ → ℚ} {x : ℚ} (hx : x ∈ allVals h w f) :
    ∃ i j, i < h ∧ j < w ∧ x = f i j := by
  rcases List.mem_flatMap.mp hx with ⟨i, hi, hmem⟩
  rcases List.mem_map.mp hmem with ⟨j, hj, hij⟩
  exact ⟨i, j, List.mem_range.mp hi, List.mem_range.mp hj, hij.symm⟩

/-! ### Helper lemmas: Python max over a list -/

theorem le_listMax : ∀ (l : List ℚ), ∀ x ∈ l, x ≤ listMax l
  | [], x, hx => absurd hx (List.not_mem_nil x)
  | [y], x, hx => by
    rw [List.mem_singleton.mp hx]
    exact le_of_eq rfl
  | y :: z :: t, x, hx => by
    rcases List.mem_cons.mp hx with h | h
    · rw [h]; exact le_max_left _ _
    · exact le_trans (le_listMax (z :: t) x h) (le_max_right _ _)

theorem listMax_mem : ∀ (l : List ℚ), l ≠ [] → listMax l ∈ l
  | [], h => absurd rfl h
  | [x], _ => List.mem_singleton.mpr rfl
  | x :: y :: t, _ => by
    show max x (listMax (y :: t)) ∈ x :: y :: t
    rcases max_cases x (listMax (y :: t)) with ⟨heq, _⟩ | ⟨heq, _⟩
    · rw [heq]; exact List.mem_cons_self x _
    · rw [heq]; exact List.mem_cons_of_mem x (listMax_mem (y :: t) (by simp))

theorem listMax_map_div (M : ℚ) (hM : 0 < M) :
    ∀ (l : List ℚ), listMax (l.map fun x => x / M) = listMax l / M
  | [] => by
    show (0 : ℚ) = 0 / M
    rw [zero_div]
  | [x] => rfl
  | x :: y :: t => by
    show max (x / M) (listMax ((y :: t).map fun x => x / M)) = max x (listMax (y :: t)) / M
    rw [listMax_map_div M hM (y :: t)]
    exact max_div_div_right (le_of_lt hM) x (listMax (y :: t))

theorem listMax_zero_of_allzero : ∀ (l : List ℚ), (∀ x ∈ l, x = 0) → listMax l = 0
  | [], _ => rfl
  | [x], h => h x (List.mem_singleton.mpr rfl)
  | x :: y :: t, h => by
    show max x (listMax (y :: t)) = 0
    rw [h x (List.mem_cons_self x _),
      listMax_zero_of_allzero (y :: t) fun z hz => h z (List.mem_cons_of_mem x hz)]
    exact max_self 0

/-! ### Helper lemmas: sorting and percentile -/

theorem mem_insertSorted {x y : ℚ} :
    ∀ {l : List ℚ}, x ∈ insertSorted y l ↔ x = y ∨ x ∈ l := by
  intro l
  induction l with
  | nil => simp [insertSorted]
  | cons a t ih =>
    show x ∈ (if y ≤ a then y :: a :: t else a :: insertSorted y t) ↔ _
    split
    · simp [List.mem_cons]
    · simp only [List.mem_cons, ih]
      tauto

theorem mem_sortQ {x : ℚ} : ∀ {l : List ℚ}, x ∈ sortQ l ↔ x ∈ l := by
  intro l
  induction l with
  | nil => simp [sortQ]
  | cons a t ih =>
    show x ∈ insertSorted a (sortQ t) ↔ _
    rw [mem_insertSorted]
    simp only [List.mem_cons, ih]

theorem nthOr_zero_of_allzero :
    ∀ (l : List ℚ), (∀ x ∈ l, x = 0) → ∀ i, nthOr l i = 0
  | [], _, i => by simp [nthOr]
  | a :: t, h, 0 => h a (List.mem_cons_self a t)
  | a :: t, h, i + 1 =>
    nthOr_zero_of_allzero t (fun x hx => h x (List.mem_cons_of_mem a hx)) i

theorem percentile_zero_of_allzero {xs : List ℚ} (h : ∀ x ∈ xs, x = 0) :
    percentile 30 xs = 0 := by
  have hs : ∀ x ∈ sortQ xs, x = 0 := fun x hx => h x (mem_sortQ.mp hx)
  show nthOr (sortQ xs) _ + _ * (nthOr (sortQ xs) _ - nthOr (sortQ xs) _) = 0
  rw [nthOr_zero_of_allzero (sortQ xs) hs, nthOr_zero_of_allzero (sortQ xs) hs]
  ring

/-! ### Helper lemmas: an all-NaN raster stays NaN through smoothing and
gradients, and becomes zero after `nan_to_num` -/

theorem smoothed_none_of_allnan {ker : ℤ → ℤ → ℚ} {r : Raster}
    (hh : 0 < r.h) (hw : 0 < r.w)
    (hnan : ∀ i j, i < r.h → j < r.w → r.data i j = none) (i j : ℕ) :
    (smoothedOf ker r).val i j = none := by
  show (offsets.flatMap fun di => offsets.map fun dj =>
    vmul (some (ker di dj))
      (r.data (reflect r.h ((i : ℤ) + di)) (reflect r.w ((j : ℤ) + dj)))).foldr
      vadd (some 0) = none
  apply foldr_vadd_none
  apply List.mem_flatMap.mpr
  refine ⟨-8, by decide, ?_⟩
  apply List.mem_map.mpr
  refine ⟨-8, by decide, ?_⟩
  rw [hnan _ _ (reflect_lt hh _) (reflect_lt hw _)]
  exact vmul_none_right _

theorem gradRow_val_none {m : Mat} (h : ∀ i j, m.val i j = none) (i j : ℕ) :
    (gradRow m).val i j = none := by
  show (if i = 0 then vsub (m.val 1 j) (m.val 0 j)
    else if i = m.h - 1 then vsub (m.val i j) (m.val (i - 1) j)
    else vmul (some (1 / 2)) (vsub (m.val (i + 1) j) (m.val (i - 1) j))) = none
  split
  · rw [h, h]; rfl
  · split
    · rw [h, h]; rfl
    · rw [h, h]; rfl

theorem gradCol_val_none {m : Mat} (h : ∀ i j, m.val i j = none) (i j : ℕ) :
    (gradCol m).val i j = none := by
  show (if j = 0 then vsub (m.val i 1) (m.val i 0)
    else if j = m.w - 1 then vsub (m.val i j) (m.val i (j - 1))
    else vmul (some (1 / 2)) (vsub (m.val i (j + 1)) (m.val i (j - 1)))) = none
  split
  · rw [h, h]; rfl
  · split
    · rw [h, h]; rfl
    · rw [h, h]; rfl

theorem flowfield_zero_of_allnan {ker : ℤ → ℤ → ℚ} {s : ℚ → ℚ} {r : Raster}
    (hh : 0 < r.h) (hw : 0 < r.w)
    (hnan : ∀ i j, i < r.h → j < r.w → r.data i j = none) (i j : ℕ) :
    magnitude ker s r i j = 0 ∧ flow_x ker s r i j = 0 ∧ flow_y ker s r i j = 0 := by
  have hsm : ∀ a b, (smoothedOf ker r).val a b = none :=
    smoothed_none_of_allnan hh hw hnan
  have hgx : gxOf ker r i j = none := gradCol_val_none hsm i j
  have hgy : gyOf ker r i j = none := gradRow_val_none hsm i j
  have hmagV : magV ker s r i j = none := by
    unfold magV
    rw [hgx, hgy]
    rfl
  refine ⟨?_, ?_, ?_⟩
  · unfold magnitude
    rw [hmagV]
    rfl
  · unfold flow_x
    rw [hgx, hmagV]
    rfl
  · unfold flow_y
    rw [hgy, hmagV]
    rfl

/-! ### Helper lemmas: magnitudes and risk values -/

theorem magnitude_nonneg {ker : ℤ → ℤ → ℚ} {s : ℚ → ℚ} {r : Raster}
    (hs : ∀ x, 0 ≤ s x) (i j : ℕ) : 0 ≤ magnitude ker s r i j := by
  unfold magnitude magV vsqrt
  cases vadd (vmul (gxOf ker r i j) (gxOf ker r i j))
      (vmul (gyOf ker r i j) (gyOf ker r i j)) with
  | none => exact le_of_eq rfl
  | some y => exact hs y

theorem flowVecsRaw_mag_nonneg {ker : ℤ → ℤ → ℚ} {s : ℚ → ℚ}
    {tr : ℚ × ℚ → ℚ × ℚ} {r : Raster} {g : ℕ} (hs : ∀ x, 0 ≤ s x) :
    ∀ v ∈ flowVecsRaw ker s tr r g, 0 ≤ v.magnitude := by
  intro v hv
  rcases List.mem_filterMap.mp hv with ⟨ij, _, heq⟩
  split at heq
  · cases heq
  · cases heq
    exact magnitude_nonneg hs ij.1 ij.2

theorem riskListRaw_risk_pos (score : ℕ → ℕ → ℚ) (tr : ℚ × ℚ → ℚ × ℚ)
    (r : Raster) (g : ℕ) :
    ∀ z ∈ riskListRaw score tr r g, 0 < z.risk := by
  intro z hz
  rcases List.mem_filterMap.mp hz with ⟨ij, _, heq⟩
  split at heq
  · cases heq
  · split at heq
    · cases heq
      rename_i hsc
      exact lt_min one_pos (lt_trans (by norm_num) hsc)
    · cases heq

theorem normalizeRisks_spec {l : List RiskCell} (hpos : ∀ z ∈ l, 0 < z.risk)
    (hne : l ≠ []) :
    listMax ((normalizeRisks l).map RiskCell.risk) = 1 ∧
    ∀ z ∈ normalizeRisks l, 0 ≤ z.risk ∧ z.risk ≤ 1 := by
  unfold normalizeRisks
  rw [if_neg hne]
  have hMmem : listMax (l.map RiskCell.risk) ∈ l.map RiskCell.risk :=
    listMax_mem _ (by simpa using hne)
  rcases List.mem_map.mp hMmem with ⟨z0, hz0, hz0M⟩
  have hMpos : 0 < listMax (l.map RiskCell.risk) := hz0M ▸ hpos z0 hz0
  rw [if_pos hMpos]
  constructor
  · have hmm : (l.map fun z => ({ z with risk := z.risk / listMax (l.map RiskCell.risk) } : RiskCell)).map RiskCell.risk
        = (l.map RiskCell.risk).map fun x => x / listMax (l.map RiskCell.risk) := by
      rw [List.map_map, List.map_map]
      rfl
    rw [hmm, listMax_map_div _ hMpos, div_self (ne_of_gt hMpos)]
  · intro z hz
    rcases List.mem_map.mp hz with ⟨w0, hw0, hw0z⟩
    have h1 : 0 ≤ w0.risk / listMax (l.map RiskCell.risk) :=
      div_nonneg (le_of_lt (hpos w0 hw0)) (le_of_lt hMpos)
    have h2 : w0.risk / listMax (l.map RiskCell.risk) ≤ 1 :=
      (div_le_one hMpos).mpr (le_listMax _ _ (List.mem_map.mpr ⟨w0, hw0, rfl⟩))
    rw [← hw0z]
    exact ⟨h1, h2⟩

/-! ### Claim theorems -/

/-- Claim C3 (counterexample): on a degenerate 1×1 raster with a single valid
cell, the gradient-field computation does not succeed with a zero gradient:
`np.gradient` raises (modelled by `none`), and consequently so does the whole
flow-vector pipeline. This refutes the claim that the computation succeeds for
every rectangular array of size at least 1×1. -/
theorem C3_degenerate_counterexample :
    npGradient (gaussian_filter dKer (matOf rOne)) = none ∧
    calculate_flow_vectors dKer wsqrt idTr rOne 20 = none := by
  constructor
  · rfl
  · rfl

/-- Claim C3 (amended): the gradient-field computation (smoothing followed by
`np.gradient`) succeeds exactly when both raster dimensions are at least 2;
in particular a 1×1 array (or any 1-wide array) makes `np.gradient` raise a
`ValueError` instead of yielding a zero gradient. -/
theorem C3_degenerate_amended (ker : ℤ → ℤ → ℚ) (m : Mat) :
    (npGradient (gaussian_filter ker m)).isSome = true ↔ 2 ≤ m.h ∧ 2 ≤ m.w := by
  unfold npGradient
  split
  · rename_i hc
    simp only [Option.isSome_some, true_iff]
    exact hc
  · rename_i hc
    simp only [Option.isSome_none, Bool.false_eq_true, false_iff]
    exact hc

/-- Claim C4 (confirmed): a sampled cell whose source depth value is valid is
appended to the east (resp. offshore) collection exactly when the spec's
formula `(max(0,flow_x)*0.4 + max(0,-divergence)*0.3 + max(0,-flow_y)*0.3) *
magnitude * 100` (resp. `(max(0,-flow_y)*0.6 + max(0,-divergence)*0.4) *
magnitude * 100`) exceeds 0.001, and the stored pre-normalization risk is that
score clamped to a maximum of 1.0. -/
theorem C4_risk_formulas (ker : ℤ → ℤ → ℚ) (s : ℚ → ℚ) (tr : ℚ × ℚ → ℚ × ℚ)
    (r : Raster) (g : ℕ) :
    riskListRaw (east_risk ker s r) tr r g =
      ((sampledPairs r.h r.w g).filterMap fun ij =>
        if r.data ij.1 ij.2 = none then none
        else if 0.001 < spec_east_risk (flow_x ker s r ij.1 ij.2)
            (flow_y ker s r ij.1 ij.2) (divergence ker s r ij.1 ij.2)
            (magnitude ker s r ij.1 ij.2) then
          some ⟨(tr (pixToXY r ij.2 ij.1)).2, (tr (pixToXY r ij.2 ij.1)).1,
            min 1 (spec_east_risk (flow_x ker s r ij.1 ij.2)
              (flow_y ker s r ij.1 ij.2) (divergence ker s r ij.1 ij.2)
              (magnitude ker s r ij.1 ij.2))⟩
        else none) ∧
    riskListRaw (offshore_risk ker s r) tr r g =
      ((sampledPairs r.h r.w g).filterMap fun ij =>
        if r.data ij.1 ij.2 = none then none
        else if 0.001 < spec_offshore_risk (flow_y ker s r ij.1 ij.2)
            (divergence ker s r ij.1 ij.2) (magnitude ker s r ij.1 ij.2) then
          some ⟨(tr (pixToXY r ij.2 ij.1)).2, (tr (pixToXY r ij.2 ij.1)).1,
            min 1 (spec_offshore_risk (flow_y ker s r ij.1 ij.2)
              (divergence ker s r ij.1 ij.2) (magnitude ker s r ij.1 ij.2))⟩
        else none) :=
  ⟨rfl, rfl⟩

/-- Claim C8 (confirmed): the numeric core is a pure function of the raster
and the parameters — two runs of flow-vector extraction, risk scoring and
depth-grid export on identical inputs produce identical output documents
(there is no randomness and no time-dependent value in the model of the
core). -/
theorem C8_determinism (ker : ℤ → ℤ → ℚ) (s : ℚ → ℚ) (tr : ℚ × ℚ → ℚ × ℚ)
    (r : Raster) (g k : ℕ) :
    calculate_flow_vectors ker s tr r g = calculate_flow_vectors ker s tr r g ∧
    calculate_rip_risk_zones ker s tr r g = calculate_rip_risk_zones ker s tr r g ∧
    export_depth_grid s tr r k = export_depth_grid s tr r k :=
  ⟨rfl, rfl, rfl⟩

/-- Claim C10 (confirmed): whenever `calculate_flow_vectors` produces an
output document, its `metadata.total_vectors` equals the length of its
`flow_vectors` array. -/
theorem C10_total_vectors (ker : ℤ → ℤ → ℚ) (s : ℚ → ℚ) (tr : ℚ × ℚ → ℚ × ℚ)
    (r : Raster) (g : ℕ) (F : FlowOut)
    (hF : calculate_flow_vectors ker s tr r g = some F) :
    F.total_vectors = F.flow_vectors.length := by
  simp only [calculate_flow_vectors] at hF
  split at hF
  · split at hF
    · cases hF
      rfl
    · split at hF
      · cases hF
      · cases hF
        rfl
  · cases hF

set_option maxRecDepth 100000 in
set_option maxHeartbeats 2000000 in
/-- Claim C10 witness: the theorem applied to a concrete successful run. -/
theorem C10_total_vectors_witness :
    ((calculate_flow_vectors dKer wsqrt idTr rSlope 20).getD dummyFlowOut).total_vectors
      = ((calculate_flow_vectors dKer wsqrt idTr rSlope 20).getD dummyFlowOut).flow_vectors.length :=
  C10_total_vectors dKer wsqrt idTr rSlope 20 _ (by decide)

theorem flow_bounds_eq {ker : ℤ → ℤ → ℚ} {s : ℚ → ℚ} {tr : ℚ × ℚ → ℚ × ℚ}
    {r : Raster} {g : ℕ} {F : FlowOut}
    (hF : calculate_flow_vectors ker s tr r g = some F) : F.bounds = rawBounds r := by
  simp only [calculate_flow_vectors] at hF
  split at hF
  · split at hF
    · cases hF; rfl
    · split at hF
      · cases hF
      · cases hF; rfl
  · cases hF

theorem depth_bounds_eq {s : ℚ → ℚ} {tr : ℚ × ℚ → ℚ × ℚ} {r : Raster} {k : ℕ}
    {D : DepthOut} (hD : export_depth_grid s tr r k = some D) :
    D.bounds = rawBounds r := by
  simp only [export_depth_grid] at hD
  split at hD
  · cases hD; rfl
  · cases hD

theorem rip_bounds_eq {ker : ℤ → ℤ → ℚ} {s : ℚ → ℚ} {tr : ℚ × ℚ → ℚ × ℚ}
    {r : Raster} {g : ℕ} {Rp : RipOut}
    (hR : calculate_rip_risk_zones ker s tr r g = some Rp) :
    Rp.bounds = ⟨(tr (r.left, r.bottom)).2, (tr (r.left, r.bottom)).1,
      (tr (r.right, r.top)).2, (tr (r.right, r.top)).1⟩ := by
  simp only [calculate_rip_risk_zones] at hR
  split at hR
  · cases hR; rfl
  · cases hR

set_option maxRecDepth 100000 in
set_option maxHeartbeats 4000000 in
/-- Claim C1 (counterexample): with a coordinate transformer that moves the
extent corners (i.e. a raster whose source coordinate system is not already
geographic), both the flow-vector pipeline and the risk pipeline succeed, yet
the `bounds` objects they write differ — refuting the claim that the same
`{south, west, north, east}` value appears in all three artifacts. -/
theorem C1_bounds_counterexample :
    (calculate_flow_vectors dKer wsqrt shiftTr rSlope 20).isSome = true ∧
    (calculate_rip_risk_zones dKer wsqrt shiftTr rSlope 20).isSome = true ∧
    (calculate_flow_vectors dKer wsqrt shiftTr rSlope 20).map FlowOut.bounds ≠
      (calculate_rip_risk_zones dKer wsqrt shiftTr rSlope 20).map RipOut.bounds :=
  ⟨by decide, by decide, by decide⟩

/-- Claim C1 (amended): `flow_vectors.json` and `depth_grid.json` write the
raster's extent verbatim in its source coordinate system (so those two always
agree), while `rip_risk_zones.json` writes the transformer images of the
south-west and north-east corners; the three `bounds` objects coincide only
when the transformer fixes the corners (a raster already in geographic
degrees). -/
theorem C1_bounds_amended (ker : ℤ → ℤ → ℚ) (s : ℚ → ℚ) (tr : ℚ × ℚ → ℚ × ℚ)
    (r : Raster) (g k gr : ℕ)
    (hf : (calculate_flow_vectors ker s tr r g).isSome = true)
    (hd : (export_depth_grid s tr r k).isSome = true)
    (hr : (calculate_rip_risk_zones ker s tr r gr).isSome = true) :
    (calculate_flow_vectors ker s tr r g).map FlowOut.bounds = some (rawBounds r) ∧
    (export_depth_grid s tr r k).map DepthOut.bounds = some (rawBounds r) ∧
    (calculate_rip_risk_zones ker s tr r gr).map RipOut.bounds =
      some ⟨(tr (r.left, r.bottom)).2, (tr (r.left, r.bottom)).1,
        (tr (r.right, r.top)).2, (tr (r.right, r.top)).1⟩ := by
  obtain ⟨F, hF⟩ := Option.isSome_iff_exists.mp hf
  obtain ⟨D, hD⟩ := Option.isSome_iff_exists.mp hd
  obtain ⟨Rp, hR⟩ := Option.isSome_iff_exists.mp hr
  refine ⟨?_, ?_, ?_⟩
  · rw [hF]
    simp only [Option.map_some']
    rw [flow_bounds_eq hF]
  · rw [hD]
    simp only [Option.map_some']
    rw [depth_bounds_eq hD]
  · rw [hR]
    simp only [Option.map_some']
    rw [rip_bounds_eq hR]

set_option maxRecDepth 100000 in
set_option maxHeartbeats 4000000 in
/-- Claim C1 witness: the amended theorem applied to a concrete raster whose
transformer is the identity. -/
theorem C1_bounds_amended_witness :
    (calculate_flow_vectors dKer wsqrt idTr rSlope 20).map FlowOut.bounds
      = some (rawBounds rSlope) ∧
    (export_depth_grid wsqrt idTr rSlope 1).map DepthOut.bounds
      = some (rawBounds rSlope) ∧
    (calculate_rip_risk_zones dKer wsqrt idTr rSlope 20).map RipOut.bounds =
      some ⟨(idTr (rSlope.left, rSlope.bottom)).2, (idTr (rSlope.left, rSlope.bottom)).1,
        (idTr (rSlope.right, rSlope.top)).2, (idTr (rSlope.right, rSlope.top)).1⟩ :=
  C1_bounds_amended dKer wsqrt idTr rSlope 20 1 20 (by decide) (by decide) (by decide)

/-- Claim C5 (confirmed): whenever the flow-vector pipeline produces an output
whose retained vector set is nonempty, the post-normalization maximum of the
vectors' magnitudes is exactly 1 and every magnitude lies in `[0, 1]` (the
normalizing constant is the maximum over the retained set). -/
theorem C5_flow_normalization (ker : ℤ → ℤ → ℚ) (s : ℚ → ℚ)
    (tr : ℚ × ℚ → ℚ × ℚ) (r : Raster) (g : ℕ) (F : FlowOut)
    (hs : ∀ x, 0 ≤ s x)
    (hF : calculate_flow_vectors ker s tr r g = some F)
    (hne : F.flow_vectors ≠ []) :
    listMax (F.flow_vectors.map FlowVec.magnitude) = 1 ∧
    ∀ v ∈ F.flow_vectors, 0 ≤ v.magnitude ∧ v.magnitude ≤ 1 := by
  simp only [calculate_flow_vectors] at hF
  split at hF
  · split at hF
    · rename_i hv
      cases hF
      exact absurd hv hne
    · rename_i hv
      split at hF
      · cases hF
      · rename_i hM
        cases hF
        have hnn : ∀ x ∈ (flowVecsRaw ker s tr r g).map FlowVec.magnitude, 0 ≤ x := by
          intro x hx
          rcases List.mem_map.mp hx with ⟨v, hv0, hveq⟩
          rw [← hveq]
          exact flowVecsRaw_mag_nonneg hs v hv0
        have hmem : listMax ((flowVecsRaw ker s tr r g).map FlowVec.magnitude)
            ∈ (flowVecsRaw ker s tr r g).map FlowVec.magnitude :=
          listMax_mem _ (by simpa using hv)
        have hMpos : 0 < listMax ((flowVecsRaw ker s tr r g).map FlowVec.magnitude) :=
          lt_of_le_of_ne (hnn _ hmem) (Ne.symm hM)
        constructor
        · have hmm : (((flowVecsRaw ker s tr r g).map fun v =>
              { v with magnitude := v.magnitude
                  / listMax ((flowVecsRaw ker s tr r g).map FlowVec.magnitude) }).map
                FlowVec.magnitude)
              = ((flowVecsRaw ker s tr r g).map FlowVec.magnitude).map fun x =>
                  x / listMax ((flowVecsRaw ker s tr r g).map FlowVec.magnitude) := by
            rw [List.map_map, List.map_map]
            rfl
          show listMax _ = 1
          rw [hmm, listMax_map_div _ hMpos, div_self (ne_of_gt hMpos)]
        · intro v hv1
          rcases List.mem_map.mp hv1 with ⟨w0, hw0, hw0v⟩
          rw [← hw0v]
          refine ⟨div_nonneg (flowVecsRaw_mag_nonneg hs w0 hw0) (le_of_lt hMpos), ?_⟩
          exact (div_le_one hMpos).mpr
            (le_listMax _ _ (List.mem_map.mpr ⟨w0, hw0, rfl⟩))
  · cases hF

set_option maxRecDepth 100000 in
set_option maxHeartbeats 4000000 in
/-- Claim C5 witness: the theorem applied to a concrete run with a nonempty
retained set. -/
theorem C5_flow_normalization_witness :
    listMax ((((calculate_flow_vectors dKer wsqrt idTr rSlope 20).getD
      dummyFlowOut).flow_vectors).map FlowVec.magnitude) = 1 ∧
    ∀ v ∈ ((calculate_flow_vectors dKer wsqrt idTr rSlope 20).getD
      dummyFlowOut).flow_vectors, 0 ≤ v.magnitude ∧ v.magnitude ≤ 1 :=
  C5_flow_normalization dKer wsqrt idTr rSlope 20 _
    (fun x => abs_nonneg x) (by decide) (by decide)

theorem ne_nil_of_normalize_ne_nil {l : List RiskCell}
    (h : normalizeRisks l ≠ []) : l ≠ [] := by
  intro hl
  subst hl
  exact h rfl

/-- Claim C6 (confirmed): in a produced risk document, each directional
collection that is nonempty has post-normalization maximum risk exactly 1 with
every element in `[0, 1]`; each direction is re-normalized independently by
its own maximum. -/
theorem C6_risk_normalization (ker : ℤ → ℤ → ℚ) (s : ℚ → ℚ)
    (tr : ℚ × ℚ → ℚ × ℚ) (r : Raster) (g : ℕ) (Rp : RipOut)
    (hR : calculate_rip_risk_zones ker s tr r g = some Rp) :
    (Rp.east ≠ [] → listMax (Rp.east.map RiskCell.risk) = 1 ∧
      ∀ z ∈ Rp.east, 0 ≤ z.risk ∧ z.risk ≤ 1) ∧
    (Rp.west ≠ [] → listMax (Rp.west.map RiskCell.risk) = 1 ∧
      ∀ z ∈ Rp.west, 0 ≤ z.risk ∧ z.risk ≤ 1) ∧
    (Rp.offshore ≠ [] → listMax (Rp.offshore.map RiskCell.risk) = 1 ∧
      ∀ z ∈ Rp.offshore, 0 ≤ z.risk ∧ z.risk ≤ 1) := by
  simp only [calculate_rip_risk_zones] at hR
  split at hR
  · cases hR
    refine ⟨fun hne => ?_, fun hne => ?_, fun hne => ?_⟩
    · exact normalizeRisks_spec (riskListRaw_risk_pos _ tr r g)
        (ne_nil_of_normalize_ne_nil hne)
    · exact normalizeRisks_spec (riskListRaw_risk_pos _ tr r g)
        (ne_nil_of_normalize_ne_nil hne)
    · exact normalizeRisks_spec (riskListRaw_risk_pos _ tr r g)
        (ne_nil_of_normalize_ne_nil hne)
  · cases hR

set_option maxRecDepth 100000 in
set_option maxHeartbeats 4000000 in
/-- Claim C6 witness: the theorem applied to a concrete run whose east
collection is nonempty. -/
theorem C6_risk_normalization_witness :
    (((calculate_rip_risk_zones dKer wsqrt idTr rSlope 20).getD dummyRipOut).east ≠ [] →
      listMax ((((calculate_rip_risk_zones dKer wsqrt idTr rSlope 20).getD
        dummyRipOut).east).map RiskCell.risk) = 1 ∧
      ∀ z ∈ ((calculate_rip_risk_zones dKer wsqrt idTr rSlope 20).getD
        dummyRipOut).east, 0 ≤ z.risk ∧ z.risk ≤ 1) ∧
    (((calculate_rip_risk_zones dKer wsqrt idTr rSlope 20).getD dummyRipOut).west ≠ [] →
      listMax ((((calculate_rip_risk_zones dKer wsqrt idTr rSlope 20).getD
        dummyRipOut).west).map RiskCell.risk) = 1 ∧
      ∀ z ∈ ((calculate_rip_risk_zones dKer wsqrt idTr rSlope 20).getD
        dummyRipOut).west, 0 ≤ z.risk ∧ z.risk ≤ 1) ∧
    (((calculate_rip_risk_zones dKer wsqrt idTr rSlope 20).getD dummyRipOut).offshore ≠ [] →
      listMax ((((calculate_rip_risk_zones dKer wsqrt idTr rSlope 20).getD
        dummyRipOut).offshore).map RiskCell.risk) = 1 ∧
      ∀ z ∈ ((calculate_rip_risk_zones dKer wsqrt idTr rSlope 20).getD
        dummyRipOut).offshore, 0 ≤ z.risk ∧ z.risk ≤ 1) :=
  C6_risk_normalization dKer wsqrt idTr rSlope 20 _ (by decide)

theorem vmul_none_left (v : Val) : vmul none v = none := by cases v <;> rfl

theorem vdiv_none_left (v : Val) : vdiv none v = none := by cases v <;> rfl

set_option maxRecDepth 100000 in
set_option maxHeartbeats 4000000 in
/-- Claim C7 (counterexample): at a cell whose gradient is `(3, 4)` the
magnitude is `5 ≠ 0`, yet the direction pair `(dx, dy) =
(3, 4) / (5 + 1e-10)` is not a unit-length vector: its squared norm is
`25 / (5 + 1e-10)^2`, strictly less than 1. This refutes the claim that
`(dx, dy)` is unit-length wherever the magnitude is nonzero. -/
theorem C7_flow_direction_counterexample :
    magnitude dKer sqrt25 rDiag 0 0 ≠ 0 ∧
    flow_x dKer sqrt25 rDiag 0 0 ^ 2 + flow_y dKer sqrt25 rDiag 0 0 ^ 2 ≠ 1 :=
  ⟨by decide, by decide⟩

/-- Claim C7 (amended): where the gradient magnitude is zero the direction
pair `(dx, dy)` is `(0, 0)`; where the gradient is valid, `(dx, dy) =
(grad_x, grad_y) / (magnitude + 1e-10)`, whose squared Euclidean norm is
`(grad_x^2 + grad_y^2) / (magnitude + 1e-10)^2` — approximately, but not
exactly, unit length; a NaN gradient (no-data propagation) yields `(0, 0)`. -/
theorem C7_flow_direction_amended (ker : ℤ → ℤ → ℚ) (s : ℚ → ℚ) (r : Raster)
    (i j : ℕ) (hs : ∀ x, 0 ≤ s x) (hz : ∀ x, s x = 0 → x = 0) :
    (magnitude ker s r i j = 0 →
      flow_x ker s r i j = 0 ∧ flow_y ker s r i j = 0) ∧
    (∀ a b, gxOf ker r i j = some a → gyOf ker r i j = some b →
      flow_x ker s r i j = a / (s (a * a + b * b) + eps) ∧
      flow_y ker s r i j = b / (s (a * a + b * b) + eps) ∧
      flow_x ker s r i j ^ 2 + flow_y ker s r i j ^ 2
        = (a ^ 2 + b ^ 2) / (s (a * a + b * b) + eps) ^ 2) ∧
    ((gxOf ker r i j = none ∨ gyOf ker r i j = none) →
      flow_x ker s r i j = 0 ∧ flow_y ker s r i j = 0) := by
  have heps : (0 : ℚ) < eps := by norm_num [eps]
  cases hgx : gxOf ker r i j with
  | none =>
    have hmagV : magV ker s r i j = none := by
      unfold magV
      rw [hgx, vmul_none_left, vadd_none_left]
      rfl
    have hfx : flow_x ker s r i j = 0 := by
      unfold flow_x
      rw [hgx, vdiv_none_left]
      rfl
    have hfy : flow_y ker s r i j = 0 := by
      unfold flow_y
      rw [hmagV, vadd_none_left, vdiv_none_right]
      rfl
    refine ⟨fun _ => ⟨hfx, hfy⟩, ?_, fun _ => ⟨hfx, hfy⟩⟩
    intro a b ha _
    simp at ha
  | some a0 =>
    cases hgy : gyOf ker r i j with
    | none =>
      have hmagV : magV ker s r i j = none := by
        unfold magV
        rw [hgx, hgy, vmul_none_left, vadd_none_right]
        rfl
      have hfx : flow_x ker s r i j = 0 := by
        unfold flow_x
        rw [hmagV, vadd_none_left, vdiv_none_right]
        rfl
      have hfy : flow_y ker s r i j = 0 := by
        unfold flow_y
        rw [hgy, vdiv_none_left]
        rfl
      refine ⟨fun _ => ⟨hfx, hfy⟩, ?_, fun _ => ⟨hfx, hfy⟩⟩
      intro a b _ hb
      simp at hb
    | some b0 =>
      have hmagV : magV ker s r i j = some (s (a0 * a0 + b0 * b0)) := by
        unfold magV
        rw [hgx, hgy]
        rfl
      have hd : 0 < s (a0 * a0 + b0 * b0) + eps :=
        add_pos_of_nonneg_of_pos (hs _) heps
      have hfx : flow_x ker s r i j = a0 / (s (a0 * a0 + b0 * b0) + eps) := by
        unfold flow_x
        rw [hgx, hmagV]
        show nan_to_num (if (s (a0 * a0 + b0 * b0) + eps) = 0 then none
          else some (a0 / (s (a0 * a0 + b0 * b0) + eps))) = _
        rw [if_neg (ne_of_gt hd)]
        rfl
      have hfy : flow_y ker s r i j = b0 / (s (a0 * a0 + b0 * b0) + eps) := by
        unfold flow_y
        rw [hgy, hmagV]
        show nan_to_num (if (s (a0 * a0 + b0 * b0) + eps) = 0 then none
          else some (b0 / (s (a0 * a0 + b0 * b0) + eps))) = _
        rw [if_neg (ne_of_gt hd)]
        rfl
      refine ⟨?_, ?_, ?_⟩
      · intro hm
        have hm0 : s (a0 * a0 + b0 * b0) = 0 := by
          unfold magnitude at hm
          rw [hmagV] at hm
          exact hm
        have hab : a0 * a0 + b0 * b0 = 0 := hz _ hm0
        have ha0 : a0 = 0 := by nlinarith [mul_self_nonneg a0, mul_self_nonneg b0]
        have hb0 : b0 = 0 := by nlinarith [mul_self_nonneg a0, mul_self_nonneg b0]
        constructor
        · rw [hfx, ha0, zero_div]
        · rw [hfy, hb0, zero_div]
      · intro a b ha hb
        cases ha
        cases hb
        refine ⟨hfx, hfy, ?_⟩
        rw [hfx, hfy, div_pow, div_pow, div_add_div_same]
      · intro hcon
        rcases hcon with h | h
        · simp at h
        · simp at h

set_option maxRecDepth 100000 in
set_option maxHeartbeats 4000000 in
/-- Claim C7 witness: the amended theorem applied to a concrete raster and a
concrete square root (the absolute value, which is nonnegative, vanishes only
at zero and is exact on the values arising there). -/
theorem C7_flow_direction_amended_witness :
    (magnitude dKer wsqrt rSlope 0 0 = 0 →
      flow_x dKer wsqrt rSlope 0 0 = 0 ∧ flow_y dKer wsqrt rSlope 0 0 = 0) ∧
    (∀ a b, gxOf dKer rSlope 0 0 = some a → gyOf dKer rSlope 0 0 = some b →
      flow_x dKer wsqrt rSlope 0 0 = a / (wsqrt (a * a + b * b) + eps) ∧
      flow_y dKer wsqrt rSlope 0 0 = b / (wsqrt (a * a + b * b) + eps) ∧
      flow_x dKer wsqrt rSlope 0 0 ^ 2 + flow_y dKer wsqrt rSlope 0 0 ^ 2
        = (a ^ 2 + b ^ 2) / (wsqrt (a * a + b * b) + eps) ^ 2) ∧
    ((gxOf dKer rSlope 0 0 = none ∨ gyOf dKer rSlope 0 0 = none) →
      flow_x dKer wsqrt rSlope 0 0 = 0 ∧ flow_y dKer wsqrt rSlope 0 0 = 0) :=
  C7_flow_direction_amended dKer wsqrt rSlope 0 0
    (fun x => abs_nonneg x) (fun _ h => abs_eq_zero.mp h)

/-- Claim C9 (confirmed): in a produced depth grid, the `depth` field of cell
`(i, j)` is null (`none`) exactly when the source array holds the NaN no-data
sentinel at the sampled pixel `(i*k, j*k)`, and otherwise equals that source
value — the statement is the `Option`-level equality of the two. -/
theorem C9_depth_nullability (s : ℚ → ℚ) (tr : ℚ × ℚ → ℚ × ℚ) (r : Raster)
    (k : ℕ) (D : DepthOut) (i j : ℕ)
    (hD : export_depth_grid s tr r k = some D)
    (hi : i < D.rows) (hj : j < D.cols) :
    ((D.grid.getD i []).getD j dummyDepthCell).depth = r.data (i * k) (j * k) := by
  simp only [export_depth_grid] at hD
  split at hD
  · cases hD
    simp only [List.getD_eq_getElem?_getD, List.getElem?_map,
      List.getElem?_range hi, List.getElem?_range hj,
      Option.map_some', Option.getD_some]
    rfl
  · cases hD

set_option maxRecDepth 100000 in
set_option maxHeartbeats 4000000 in
/-- Claim C9 witness: the theorem applied to a concrete export with
downsample factor 1. -/
theorem C9_depth_nullability_witness :
    (((((export_depth_grid wsqrt idTr rSlope 1).getD dummyDepthOut).grid.getD 0
      []).getD 0 dummyDepthCell).depth) = rSlope.data (0 * 1) (0 * 1) :=
  C9_depth_nullability wsqrt idTr rSlope 1 _ 0 0 (by decide) (by decide) (by decide)

set_option maxRecDepth 100000 in
set_option maxHeartbeats 4000000 in
/-- Claim C2 (counterexample): on a concrete 2×2 all-NaN raster the
flow-vector pipeline does not complete: every sampled cell has sanitized
magnitude 0, the 30th percentile of the all-zero magnitude array is 0, the
strict `<` filter therefore retains every sampled cell, and the normalization
divides by the retained maximum `0.0`, raising `ZeroDivisionError` (modelled
by `none`). This refutes the claim that both pipelines complete without error
with empty collections. -/
theorem C2_allnan_counterexample :
    calculate_flow_vectors dKer wsqrt idTr rNaN 20 = none := by decide

/-- Claim C2 (amended): for every all-NaN raster with both dimensions at
least 2, the risk pipeline completes without error with all three directional
collections empty (their re-normalization is skipped); the flow-vector
pipeline, however, retains every sampled cell with zero magnitude (the
all-zero magnitude array makes the strict percentile test fail) and then
fails with a division by the zero maximum during normalization; rasters with
a dimension below 2 make both pipelines fail at `np.gradient`. -/
theorem C2_allnan_amended (ker : ℤ → ℤ → ℚ) (s : ℚ → ℚ) (tr : ℚ × ℚ → ℚ × ℚ)
    (r : Raster) (g : ℕ) (hh : 2 ≤ r.h) (hw : 2 ≤ r.w)
    (hnan : ∀ i j, i < r.h → j < r.w → r.data i j = none) :
    (calculate_rip_risk_zones ker s tr r g).map (fun o => (o.east, o.west, o.offshore))
      = some ([], [], []) ∧
    calculate_flow_vectors ker s tr r g = none := by
  have hg : (npGradient (smoothedOf ker r)).isSome = true := by
    unfold npGradient
    rw [if_pos]
    · rfl
    · exact ⟨hh, hw⟩
  have hh0 : 0 < r.h := by omega
  have hw0 : 0 < r.w := by omega
  constructor
  · have hrisk : ∀ sc : ℕ → ℕ → ℚ, riskListRaw sc tr r g = [] := by
      intro sc
      unfold riskListRaw
      apply List.filterMap_eq_nil_iff.mpr
      intro ij hij
      rw [if_pos (hnan _ _ (mem_sampledPairs hij).1 (mem_sampledPairs hij).2)]
    unfold calculate_rip_risk_zones
    rw [if_pos hg]
    simp only [hrisk]
    rfl
  · have hmag : ∀ i j, magnitude ker s r i j = 0 := fun i j =>
      (flowfield_zero_of_allnan hh0 hw0 hnan i j).1
    have hp : percentile 30 (allVals r.h r.w (magnitude ker s r)) = 0 := by
      apply percentile_zero_of_allzero
      intro x hx
      rcases mem_allVals hx with ⟨i, j, _, _, hxf⟩
      rw [hxf]
      exact hmag i j
    have hnotlt : ∀ i j : ℕ, ¬(magnitude ker s r i j <
        percentile 30 (allVals r.h r.w (magnitude ker s r))) := by
      intro i j
      rw [hmag i j, hp]
      exact lt_irrefl 0
    have hf00 : ((0, 0) : ℕ × ℕ) ∈ sampledPairs r.h r.w g :=
      zero_mem_sampledPairs hh0 hw0
    have hvne : flowVecsRaw ker s tr r g ≠ [] := by
      apply List.ne_nil_of_mem
        (a := (⟨(tr (pixToXY r 0 0)).2, (tr (pixToXY r 0 0)).1,
          flow_x ker s r 0 0, flow_y ker s r 0 0, magnitude ker s r 0 0⟩ : FlowVec))
      unfold flowVecsRaw
      apply List.mem_filterMap.mpr
      exact ⟨(0, 0), hf00, by rw [if_neg (hnotlt 0 0)]⟩
    have hallz : ∀ v ∈ flowVecsRaw ker s tr r g, v.magnitude = 0 := by
      intro v hv
      rcases List.mem_filterMap.mp hv with ⟨ij, _, heq⟩
      rw [if_neg (hnotlt ij.1 ij.2)] at heq
      cases heq
      exact hmag ij.1 ij.2
    have hmax : listMax ((flowVecsRaw ker s tr r g).map FlowVec.magnitude) = 0 := by
      apply listMax_zero_of_allzero
      intro x hx
      rcases List.mem_map.mp hx with ⟨v, hv, hvx⟩
      rw [← hvx]
      exact hallz v hv
    simp only [calculate_flow_vectors]
    rw [if_pos hg, if_neg hvne, if_pos hmax]

set_option maxRecDepth 100000 in
set_option maxHeartbeats 4000000 in
/-- Claim C2 witness: the amended theorem applied to the concrete 2×2 all-NaN
raster. -/
theorem C2_allnan_amended_witness :
    (calculate_rip_risk_zones dKer wsqrt idTr rNaN 20).map
      (fun o => (o.east, o.west, o.offshore)) = some ([], [], []) ∧
    calculate_flow_vectors dKer wsqrt idTr rNaN 20 = none :=
  C2_allnan_amended dKer wsqrt idTr rNaN 20 (by decide) (by decide)
    (fun _ _ _ _ => rfl)

end PortStanley
